import Mathlib

/-!
Verification of the annotated-CSV decoder and its line-protocol encoder
(repository rogpeppe/annotatedcsv).

The decoder lives in main.go: a peekable CSV row source (csvReader),
a schema builder (readHeader), a row decoder (readTableRows), a table
decoder (readTable), a stream decoder (readAll) and a value converter
(convertToType).  The encoder lives in cmd/csv2lineprotocol/main.go:
tableInfoForColumns, escapeValue and writeLineProtocol.

Shallow-embedding conventions:
- Go machine values: int64 is modelled as Int with the parse functions
  enforcing the 64-bit range, uint64 as Nat bounded by 2^64 - 1.
- Go float64 is modelled by the inductive GoFloat: a finite value carries
  the decimal text Go fmt would print for it (its shortest round-trip
  form), and the non-finite values are posInf, negInf and nan.  The model
  of strconv.ParseFloat below keeps the source text of a finite parse.
- time.Time is modelled by its UnixNano value (Int).
- Go maps (map of string to value / column) are modelled as association
  lists with overwrite-on-insert; Go map iteration order is not modelled,
  concrete claims compare the insertion-ordered association lists.
- The underlying encoding/csv reader is modelled as a list of records
  (each a list of raw fields); FieldsPerRecord is -1 in the source, so
  the csv layer performs no field-count checks.  io.EOF is the only
  underlying read error that the model produces.
- Loops that walk the input stream take an explicit fuel parameter; the
  exported wrappers pass fuel strictly larger than the number of
  remaining records, which is an upper bound on the iteration count.
-/

/-- Pairs each list element with its index, starting at k (Go range index). -/
def enumFrom {α : Type} (k : Nat) : List α → List (Nat × α)
  | [] => []
  | a :: as => (k, a) :: enumFrom (k + 1) as

/-- Association-list insert with Go map semantics: overwrite the existing
key in place, else append. -/
def mapInsert {α : Type} (m : List (String × α)) (k : String) (v : α) :
    List (String × α) :=
  if m.any (fun p => p.1 = k) then
    m.map (fun p => if p.1 = k then (k, v) else p)
  else m ++ [(k, v)]

/-- Model of strings.HasPrefix, kept kernel-reducible by working on the
character lists. -/
def strStarts (s pre : String) : Bool := pre.data.isPrefixOf s.data

/-- Drops the first n characters of a string (used for strings.TrimPrefix). -/
def dropStr (s : String) (n : Nat) : String := String.mk (s.data.drop n)

/-- Model of strings.TrimPrefix s "dateTime:". -/
def trimDateTimeTag (s : String) : String := dropStr s 9

/-- ASCII lower-casing of one character (for ParseFloat special values). -/
def lowChar (c : Char) : Char :=
  if 'A' ≤ c ∧ c ≤ 'Z' then Char.ofNat (c.toNat + 32) else c

/-- ASCII lower-casing of a string. -/
def lowerStr (s : String) : String := String.mk (s.data.map lowChar)

/-- Go float64 as it matters to this program: finite values carry the
decimal text that Go fmt printing produces for them; infinities and NaN
are explicit. -/
inductive GoFloat : Type
  | finite (text : String)
  | posInf
  | negInf
  | nan
deriving DecidableEq, Repr

/-- math.IsInf(x, 0) or math.IsNaN(x). -/
def GoFloat.isNonFinite : GoFloat → Bool
  | .finite _ => false
  | _ => true

/-- Dynamic value produced by the decoders (Go interface values).  The
constructor other stands for any dynamic type not in the list that the
program handles; it is what the type switches fall through on. -/
inductive GoVal : Type
  | i64 (n : Int)
  | u64 (n : Nat)
  | f64 (x : GoFloat)
  | str (s : String)
  | bool (b : Bool)
  | time (unixNano : Int)
  | other (desc : String)
deriving DecidableEq, Repr

/-- Conversion failures of convertToType (carrying exactly the data the
Go errors interpolate). -/
inductive ConvErr : Type
  | badBool (s : String)
  | badInt (s : String)
  | badUint (s : String)
  | badFloat (s : String)
  | unknownTimeFormat (typ : String)
  | badTime (s : String)
deriving DecidableEq, Repr

/-- Decimal digit test. -/
def isDigit (c : Char) : Bool := ('0' ≤ c) && (c ≤ '9')

/-- Value of a non-empty all-digit character list, else none. -/
def digitsVal : List Char → Option Nat
  | [] => none
  | cs =>
    if cs.all isDigit then
      some (cs.foldl (fun a c => a * 10 + (c.toNat - 48)) 0)
    else none

/-- Model of strconv.ParseInt(s, 10, 64): optional sign, decimal digits,
64-bit signed range; any failure (including range) yields none, matching
the Go call sites which only test err != nil. -/
def parseInt64 (s : String) : Option Int :=
  let signed : Bool × List Char :=
    match s.data with
    | '+' :: cs => (false, cs)
    | '-' :: cs => (true, cs)
    | cs => (false, cs)
  match digitsVal signed.2 with
  | none => none
  | some n =>
    if signed.1 then
      if n ≤ 2 ^ 63 then some (-(n : Int)) else none
    else
      if n ≤ 2 ^ 63 - 1 then some (n : Int) else none

/-- Model of strconv.ParseUint(s, 10, 64): no sign permitted, decimal
digits, 64-bit unsigned range. -/
def parseUint64 (s : String) : Option Nat :=
  match digitsVal s.data with
  | none => none
  | some n => if n ≤ 2 ^ 64 - 1 then some n else none

/-- Model of strconv.ParseBool: exactly the twelve accepted literals. -/
def parseBool (s : String) : Option Bool :=
  if s = "1" ∨ s = "t" ∨ s = "T" ∨ s = "true" ∨ s = "TRUE" ∨ s = "True" then
    some true
  else if s = "0" ∨ s = "f" ∨ s = "F" ∨ s = "false" ∨ s = "FALSE" ∨ s = "False" then
    some false
  else none

/-- Optional leading sign (for the float grammar). -/
def stripSign : List Char → List Char
  | '+' :: cs => cs
  | '-' :: cs => cs
  | cs => cs

/-- Optional exponent part of a decimal float: empty, or e/E, optional
sign, at least one digit. -/
def expOk : List Char → Bool
  | [] => true
  | c :: cs =>
    (c = 'e' ∨ c = 'E') &&
      (let ds := stripSign cs
       !ds.isEmpty && ds.all isDigit)

/-- Decimal float syntax: optional sign, digits with optional dot
(at least one digit on one side), optional exponent. -/
def validDec (cs0 : List Char) : Bool :=
  let cs := stripSign cs0
  let sp := cs.span isDigit
  match sp.2 with
  | '.' :: r2 =>
    let sp2 := r2.span isDigit
    (!sp.1.isEmpty || !sp2.1.isEmpty) && expOk sp2.2
  | r1 => !sp.1.isEmpty && expOk r1

/-- Model of strconv.ParseFloat(s, 64).  The special values inf, infinity
and nan (optionally signed, case-insensitive) parse to the non-finite
values; ordinary decimal syntax parses to a finite value, recorded by its
source text; anything else (and, not modelled, out-of-range inputs and
hexadecimal floats) fails.  Only the error/non-finite classification of
the result is used by the program under verification. -/
def parseFloatM (s : String) : Option GoFloat :=
  let l := lowerStr s
  if l = "inf" ∨ l = "+inf" ∨ l = "infinity" ∨ l = "+infinity" then
    some .posInf
  else if l = "-inf" ∨ l = "-infinity" then some .negInf
  else if l = "nan" ∨ l = "+nan" ∨ l = "-nan" then some .nan
  else if validDec s.data then some (.finite s) else none

/-- Reads exactly two decimal digits. -/
def twoDigits : List Char → Option (Nat × List Char)
  | a :: b :: rest =>
    if isDigit a && isDigit b then
      some ((a.toNat - 48) * 10 + (b.toNat - 48), rest)
    else none
  | _ => none

/-- Reads exactly four decimal digits. -/
def fourDigits (cs : List Char) : Option (Nat × List Char) :=
  match twoDigits cs with
  | some (hi, rest) =>
    match twoDigits rest with
    | some (lo, rest2) => some (hi * 100 + lo, rest2)
    | none => none
  | none => none

/-- Expects one specific character. -/
def expectCh (c : Char) : List Char → Option (List Char)
  | d :: rest => if d = c then some rest else none
  | _ => none

/-- Gregorian leap year. -/
def isLeap (y : Nat) : Bool := (y % 4 = 0 ∧ y % 100 ≠ 0) ∨ y % 400 = 0

/-- Days in a month. -/
def daysInMonth (y m : Nat) : Nat :=
  if m = 2 then (if isLeap y then 29 else 28)
  else if m = 4 ∨ m = 6 ∨ m = 9 ∨ m = 11 then 30
  else 31

/-- Days from 1970-01-01 to the given civil date (valid for year ≥ 1),
the standard civil-from-days algorithm. -/
def daysFromCivil (y m d : Nat) : Int :=
  let y2 := if m ≤ 2 then y - 1 else y
  let era := y2 / 400
  let yoe := y2 - era * 400
  let mp := (m + 9) % 12
  let doy := (153 * mp + 2) / 5 + d - 1
  let doe := yoe * 365 + yoe / 4 - yoe / 100 + doy
  ((era * 146097 + doe : Nat) : Int) - 719468

/-- Fractional seconds: a dot followed by at least one digit; yields
nanoseconds (first nine digits, right-padded with zeros). -/
def parseFrac : List Char → Option (Int × List Char)
  | '.' :: rest =>
    let sp := rest.span isDigit
    if sp.1.isEmpty then none
    else
      let ds := (sp.1.take 9) ++ List.replicate (9 - sp.1.length) '0'
      some (((ds.foldl (fun a c => a * 10 + (c.toNat - 48)) 0 : Nat) : Int), sp.2)
  | cs => some (0, cs)

/-- Timezone suffix: Z, or a signed hh:mm offset; yields the offset east
of UTC in seconds. -/
def parseZone : List Char → Option Int
  | ['Z'] => some 0
  | c :: rest =>
    if c = '+' ∨ c = '-' then
      match twoDigits rest with
      | some (h, r1) =>
        match expectCh ':' r1 with
        | some r2 =>
          match twoDigits r2 with
          | some (mi, []) =>
            if h ≤ 23 ∧ mi ≤ 59 then
              let secs : Int := (h * 3600 + mi * 60 : Nat)
              some (if c = '-' then -secs else secs)
            else none
          | _ => none
        | none => none
      | none => none
    else none
  | _ => none

/-- Modelled from the spec: Go stdlib time.Parse for the two registered
layouts (time.RFC3339 and time.RFC3339Nano), which is called by
convertToType but lives outside this repository.  Both layouts accept an
RFC3339 timestamp with optional fractional seconds; the result is the
UnixNano value.  Component ranges are checked; leap seconds and years
before 1 are not modelled. -/
def rfc3339ToNano (s : String) : Option Int :=
  match fourDigits s.data with
  | none => none
  | some (y, r1) =>
  match expectCh '-' r1 with
  | none => none
  | some r2 =>
  match twoDigits r2 with
  | none => none
  | some (mo, r3) =>
  match expectCh '-' r3 with
  | none => none
  | some r4 =>
  match twoDigits r4 with
  | none => none
  | some (d, r5) =>
  match expectCh 'T' r5 with
  | none => none
  | some r6 =>
  match twoDigits r6 with
  | none => none
  | some (h, r7) =>
  match expectCh ':' r7 with
  | none => none
  | some r8 =>
  match twoDigits r8 with
  | none => none
  | some (mi, r9) =>
  match expectCh ':' r9 with
  | none => none
  | some r10 =>
  match twoDigits r10 with
  | none => none
  | some (sec, r11) =>
  match parseFrac r11 with
  | none => none
  | some (nanos, r12) =>
  match parseZone r12 with
  | none => none
  | some off =>
    if 1 ≤ y ∧ 1 ≤ mo ∧ mo ≤ 12 ∧ 1 ≤ d ∧ d ≤ daysInMonth y mo ∧
        h ≤ 23 ∧ mi ≤ 59 ∧ sec ≤ 59 then
      let secsUTC : Int :=
        daysFromCivil y mo d * 86400 + ((h * 3600 + mi * 60 + sec : Nat) : Int) - off
      some (secsUTC * 1000000000 + nanos)
    else none

/-- The timeFormats map: registered named layouts.  The layout value is
kept abstract (both registered layouts parse the same texts in the model
above); what matters is which names are present. -/
def timeFormats (name : String) : Option String :=
  if name = "RFC3339" then some "RFC3339"
  else if name = "RFC3339Nano" then some "RFC3339Nano"
  else none

/-- Embedding of convertToType (main.go): dispatch on the declared type
tag.  Unknown datatype tags print a warning and pass the text through as
a string (the warning itself is not modelled). -/
def convertToType (s typ : String) : Except ConvErr GoVal :=
  if typ = "boolean" then
    match parseBool s with
    | some b => .ok (.bool b)
    | none => .error (.badBool s)
  else if typ = "long" then
    match parseInt64 s with
    | some n => .ok (.i64 n)
    | none => .error (.badInt s)
  else if typ = "unsignedLong" then
    match parseUint64 s with
    | some n => .ok (.u64 n)
    | none => .error (.badUint s)
  else if typ = "double" then
    match parseFloatM s with
    | none => .error (.badFloat s)
    | some x => if x.isNonFinite then .ok (.str s) else .ok (.f64 x)
  else if typ = "string" ∨ typ = "tag" ∨ typ = "" then .ok (.str s)
  else if strStarts typ "dateTime:" then
    match timeFormats (trimDateTimeTag typ) with
    | none => .error (.unknownTimeFormat typ)
    | some _ =>
      match rfc3339ToNano s with
      | some t => .ok (.time t)
      | none => .error (.badTime s)
  else .ok (.str s)

/-- Embedding of the column struct (main.go): zero value has empty name,
empty type, group false, no default. -/
structure Column : Type where
  index : Nat := 0
  name : String := ""
  group : Bool := false
  default : Option GoVal := none
  type : String := ""
deriving DecidableEq, Repr

/-- The zero column value produced by make([]column, n). -/
def emptyColumn : Column := {}

/-- Fatal decode errors, one constructor per fmt.Errorf call site in
main.go, carrying exactly the data that the Go message interpolates:
- noColumns: no columns in table header at line (line)
- inconsistentHeader: inconsistent table header, got (got) items want
  (want) -- note the message has no line number
- inconsistentColumns: inconsistent number of columns at line (line)
- cannotParse: cannot parse (val) as type (typ) at line (line)
- cannotConvertDefault: cannot convert default value (val) to type (typ),
  plus the inner conversion error -- note the message has no line number. -/
inductive DErr : Type
  | noColumns (line : Nat)
  | inconsistentHeader (got want : Nat)
  | inconsistentColumns (line : Nat)
  | cannotParse (val typ : String) (line : Nat)
  | cannotConvertDefault (val typ : String) (inner : ConvErr)
deriving DecidableEq, Repr

/-- Whether the corresponding Go error message interpolates an input line
number. -/
def DErr.includesLine : DErr → Bool
  | .noColumns _ => true
  | .inconsistentHeader _ _ => false
  | .inconsistentColumns _ => true
  | .cannotParse _ _ _ => true
  | .cannotConvertDefault _ _ _ => false

/-- Embedding of csvReader (main.go): one-row lookahead over the
underlying csv.Reader, which is modelled by the list of remaining
records; err is the memoized error of the peeked read (only io.EOF,
modelled as some ()). -/
structure CsvReader : Type where
  hasPeeked : Bool
  row : List String
  err : Option Unit
  rows : List (List String)
  line : Nat
deriving DecidableEq, Repr

/-- The underlying csv.Reader.Read: next record, or io.EOF. -/
def csvRead (rs : List (List String)) :
    (List String × Option Unit) × List (List String) :=
  match rs with
  | [] => (([], some ()), [])
  | r :: rest => ((r, none), rest)

/-- Embedding of csvReader.Read. -/
def CsvReader.read (r : CsvReader) : (List String × Option Unit) × CsvReader :=
  if r.hasPeeked then ((r.row, r.err), { r with hasPeeked := false })
  else
    let res := csvRead r.rows
    (res.1, { r with line := r.line + 1, rows := res.2 })

/-- Embedding of csvReader.Peek. -/
def CsvReader.peek (r : CsvReader) : (List String × Option Unit) × CsvReader :=
  if r.hasPeeked then ((r.row, r.err), r)
  else
    let res := csvRead r.rows
    (res.1,
     { r with hasPeeked := true, row := res.1.1, err := res.1.2,
              line := r.line + 1, rows := res.2 })

/-- Row value maps (Go map[string]interface, as an insertion-ordered
association list). -/
abbrev RowMap := List (String × GoVal)

/-- The per-field loop body of readTableRows over the zipped
(field, column) pairs: defaults for empty text, key omission for empty
text in empty-named columns, else conversion; a conversion failure
reports the offending text and declared type. -/
def buildRow : List (String × Column) → RowMap → Except (String × String) RowMap
  | [], m => .ok m
  | (val, col) :: rest, m =>
    if col.default.isSome ∧ val = "" then
      buildRow rest (mapInsert m col.name (col.default.getD (.str "")))
    else if val = "" ∧ col.name = "" then buildRow rest m
    else
      match convertToType val col.type with
      | .error _ => .error (val, col.type)
      | .ok x => buildRow rest (mapInsert m col.name x)

/-- Embedding of the readTableRows loop (main.go).  Each iteration peeks:
on an error it returns the rows so far; on a row starting with a hash it
returns without consuming the row (it belongs to the next table);
otherwise it consumes the row, checks the field count against the column
count and converts the fields.  Fuel bounds the iteration count; the
wrapper below supplies more fuel than there are remaining records, and
running out of fuel returns like end of input. -/
def readTableRowsF : Nat → CsvReader → List Column → List RowMap →
    (List RowMap × Option DErr) × CsvReader
  | 0, r, _, acc => ((acc, none), r)
  | fuel + 1, r, cols, acc =>
    match r.peek with
    | ((row, e), r1) =>
      if e.isSome then ((acc, none), r1)
      else if strStarts (row.headD "") "#" then ((acc, none), r1)
      else
        let r2 := (r1.read).2
        if row.length ≠ cols.length then
          ((acc, some (.inconsistentColumns r2.line)), r2)
        else
          match buildRow (row.zip cols) [] with
          | .error (v, t) => ((acc, some (.cannotParse v t r2.line)), r2)
          | .ok m => readTableRowsF fuel r2 cols (acc ++ [m])

/-- Result of the readHeader annotation loop: early is the peek-error
path (return cols, nil -- no defaults conversion happens), named is the
break on the first non-annotation row (names assigned), fail is a hard
error. -/
inductive HdrRes : Type
  | early (cols : Option (List Column))
  | named (cols : List Column) (defs : Option (List String))
  | fail (e : DErr)
deriving DecidableEq, Repr

/-- The datatype annotation: fields 1 and up set the column types
positionally (index 0 is the annotation label and is skipped). -/
def setTypes (cs : List Column) (row : List String) : List Column :=
  (enumFrom 0 cs).map fun p =>
    if p.1 = 0 then p.2
    else
      match row.get? p.1 with
      | some v => { p.2 with type := v }
      | none => p.2

/-- The group annotation: fields 1 and up set the group flags; the text
true yields true, anything else false. -/
def setGroups (cs : List Column) (row : List String) : List Column :=
  (enumFrom 0 cs).map fun p =>
    if p.1 = 0 then p.2
    else
      match row.get? p.1 with
      | some v => { p.2 with group := v = "true" }
      | none => p.2

/-- The header name row assigns column names positionally from index 0. -/
def applyNames (cs : List Column) (row : List String) : List Column :=
  (enumFrom 0 cs).map fun p =>
    match row.get? p.1 with
    | some v => { p.2 with name := v }
    | none => p.2

/-- Embedding of the readHeader loop (main.go).  The first row fixes the
column count (an empty first record is a hard error); every further
header row must have the same field count or the build fails with the
got/want error; annotation rows update the schema; the default row is
remembered raw; an unknown annotation is warned about and ignored; the
first non-annotation row assigns names and ends the loop. -/
def readHeaderLoopF : Nat → CsvReader → Option (List Column) →
    Option (List String) → HdrRes × CsvReader
  | 0, r, cols0, _ => (.early cols0, r)
  | fuel + 1, r, cols0, defs =>
    match r.peek with
    | ((row, e), r1) =>
      if e.isSome then (.early cols0, r1)
      else
        let r2 := (r1.read).2
        let csR : Except DErr (List Column) :=
          match cols0 with
          | none =>
            if row.length = 0 then .error (.noColumns r2.line)
            else .ok (List.replicate row.length emptyColumn)
          | some cs =>
            if row.length ≠ cs.length then
              .error (.inconsistentHeader row.length cs.length)
            else .ok cs
        match csR with
        | .error e2 => (.fail e2, r2)
        | .ok cs =>
          if strStarts (row.headD "") "#" then
            if row.headD "" = "#datatype" then
              readHeaderLoopF fuel r2 (some (setTypes cs row)) defs
            else if row.headD "" = "#group" then
              readHeaderLoopF fuel r2 (some (setGroups cs row)) defs
            else if row.headD "" = "#default" then
              readHeaderLoopF fuel r2 (some cs) (some row)
            else readHeaderLoopF fuel r2 (some cs) defs
          else (.named (applyNames cs row) defs, r2)

/-- The declared type of column i (cols[i].Type; the call sites guarantee
i is in range). -/
def colTypeAt (cs : List Column) (i : Nat) : String :=
  match cs.get? i with
  | some c => c.type
  | none => ""

/-- Sets the default of column i. -/
def setDefault (cs : List Column) (i : Nat) (v : GoVal) : List Column :=
  (enumFrom 0 cs).map fun p =>
    if p.1 = i then { p.2 with default := some v } else p.2

/-- The deferred defaults pass of readHeader: indices 1 and up of the
remembered default row, skipping empty texts, converted with the
column's declared type; a failure is the cannot-convert-default hard
error (whose message has no line number). -/
def convDefaultsFrom : List Column → List (Nat × String) → Except DErr (List Column)
  | cs, [] => .ok cs
  | cs, (i, d) :: rest =>
    if i = 0 ∨ d = "" then convDefaultsFrom cs rest
    else
      match convertToType d (colTypeAt cs i) with
      | .error e => .error (.cannotConvertDefault d (colTypeAt cs i) e)
      | .ok v => convDefaultsFrom (setDefault cs i v) rest

/-- Embedding of readHeader (main.go): the annotation loop, then, only on
the named path, the defaults conversion.  The early peek-error path
returns the columns built so far with no error (an absent slice is the
empty schema). -/
def readHeaderF (fuel : Nat) (r : CsvReader) :
    Except DErr (List Column) × CsvReader :=
  match readHeaderLoopF fuel r none none with
  | (.early cols, r1) => (.ok (cols.getD []), r1)
  | (.fail e, r1) => (.error e, r1)
  | (.named cs defs, r1) =>
    match defs with
    | none => (.ok cs, r1)
    | some ds =>
      match convDefaultsFrom cs (enumFrom 0 ds) with
      | .ok cs2 => (.ok cs2, r1)
      | .error e => (.error e, r1)

/-- Embedding of the table struct (main.go); the columns map is the
insertion-ordered association-list model of the Go map. -/
structure Table : Type where
  columns : List (String × Column)
  rows : List RowMap
deriving DecidableEq, Repr

/-- The columns-map build in readTable: skip columns with empty name and
no default, set the index, insert by name (a later column with the same
name overwrites an earlier one). -/
def mkColumnsMap : List (Nat × Column) → List (String × Column) →
    List (String × Column)
  | [], m => m
  | (i, c) :: rest, m =>
    if c.name = "" ∧ c.default = none then mkColumnsMap rest m
    else mkColumnsMap rest (mapInsert m c.name { c with index := i })

/-- Embedding of readTable (main.go). -/
def readTableF (fuel : Nat) (r : CsvReader) : Except DErr Table × CsvReader :=
  match readHeaderF fuel r with
  | (.error e, r1) => (.error e, r1)
  | (.ok cols, r1) =>
    match readTableRowsF fuel r1 cols [] with
    | ((_, some e), r2) => (.error e, r2)
    | ((rows, none), r2) =>
      (.ok { columns := mkColumnsMap (enumFrom 0 cols) [], rows := rows }, r2)

/-- Embedding of readAll (main.go): tables are accumulated until a peek
after a table fails; in this model the only underlying error is io.EOF,
on which the tables so far are returned without error, as in the Go
code.  A table error is returned together with the tables decoded before
it.  The per-table fuel is a strict upper bound on the records the table
can consume. -/
def readAllF : Nat → CsvReader → List Table × Option DErr
  | 0, _ => ([], none)
  | fuel + 1, r =>
    match readTableF (r.rows.length + 2) r with
    | (.error e, _) => ([], some e)
    | (.ok t, r1) =>
      match r1.peek with
      | ((_, some _), _) => ([t], none)
      | ((_, none), r2) =>
        match readAllF fuel r2 with
        | (ts, e) => (t :: ts, e)

/-- Decodes a whole record stream from the start: the reader starts with
no lookahead and line counter 0, so the k-th record (1-based) is at line
k. -/
def decodeCSV (input : List (List String)) : List Table × Option DErr :=
  readAllF (input.length + 1) { hasPeeked := false, row := [], err := none,
                                rows := input, line := 0 }

/-- Modelled from the spec: the annotatedcsv library Column record (name
and declared type) consumed by cmd/csv2lineprotocol; the library itself
is not under src, only this consumer, which reads exactly these two
fields. -/
structure ACColumn : Type where
  name : String
  type : String
deriving DecidableEq, Repr

/-- Embedding of tableInfo (cmd/csv2lineprotocol/main.go); the reserved
column indices use -1 as the not-found sentinel, as in the source. -/
structure TableInfo : Type where
  measurement : Int := -1
  field : Int := -1
  value : Int := -1
  time : Int := -1
  tagNames : List String := []
  tagIndexes : List Nat := []
deriving DecidableEq, Repr

/-- Errors of the line-protocol encoder, one constructor per fmt.Errorf
call site: wrongType names the reserved column and the type it got,
missing names the absent reserved column, badValueKind carries the
unexpected dynamic type of the value column. -/
inductive LPErr : Type
  | wrongType (col got : String)
  | missing (col : String)
  | badValueKind (desc : String)
deriving DecidableEq, Repr

/-- Model of strings.TrimPrefix(name, "_"): strips one leading
underscore if present. -/
def trimUnderscore (s : String) : String :=
  if strStarts s "_" then dropStr s 1 else s

/-- The loop of tableInfoForColumns over the indexed columns: reserved
names set the corresponding index (checking the declared type for
_measurement, _field and _time; _value accepts any type), the empty name
is ignored, and every other name becomes a tag with one leading
underscore trimmed, in encounter order. -/
def tifcLoop : List (Nat × ACColumn) → TableInfo → Except LPErr TableInfo
  | [], info => .ok info
  | (i, col) :: rest, info =>
    if col.name = "_measurement" then
      if col.type ≠ "string" then .error (.wrongType "_measurement" col.type)
      else tifcLoop rest { info with measurement := (i : Int) }
    else if col.name = "_field" then
      if col.type ≠ "string" then .error (.wrongType "_field" col.type)
      else tifcLoop rest { info with field := (i : Int) }
    else if col.name = "_value" then
      tifcLoop rest { info with value := (i : Int) }
    else if col.name = "_time" then
      if ¬ strStarts col.type "dateTime:" then
        .error (.wrongType "_time" col.type)
      else tifcLoop rest { info with time := (i : Int) }
    else if col.name = "" then tifcLoop rest info
    else
      tifcLoop rest
        { info with tagNames := info.tagNames ++ [trimUnderscore col.name],
                    tagIndexes := info.tagIndexes ++ [i] }

/-- Embedding of tableInfoForColumns (cmd/csv2lineprotocol/main.go): the
loop, then the four missing-column checks in source order. -/
def tableInfoForColumns (cols : List ACColumn) : Except LPErr TableInfo :=
  match tifcLoop (enumFrom 0 cols) {} with
  | .error e => .error e
  | .ok info =>
    if info.measurement = -1 then .error (.missing "_measurement")
    else if info.field = -1 then .error (.missing "_field")
    else if info.value = -1 then .error (.missing "_value")
    else if info.time = -1 then .error (.missing "_time")
    else .ok info

/-- The tagNameEscaper / tagValueEscaper / fieldNameEscaper replacer:
tab, newline, form feed, carriage return, comma, space and equals are
backslash-escaped.  All its patterns are single characters, so the
strings.Replacer single pass is a character map. -/
def escTagChar (c : Char) : String :=
  if c = '\t' then "\\t"
  else if c = '\n' then "\\n"
  else if c = '\x0c' then "\\f"
  else if c = '\r' then "\\r"
  else if c = ',' then "\\,"
  else if c = ' ' then "\\ "
  else if c = '=' then "\\="
  else String.singleton c

/-- The measurementEscaper replacer: as the tag escaper but the equals
sign is not escaped. -/
def escMeasChar (c : Char) : String :=
  if c = '\t' then "\\t"
  else if c = '\n' then "\\n"
  else if c = '\x0c' then "\\f"
  else if c = '\r' then "\\r"
  else if c = ',' then "\\,"
  else if c = ' ' then "\\ "
  else String.singleton c

/-- The stringFieldEscaper replacer: double quote and backslash are
backslash-escaped. -/
def escStrFieldChar (c : Char) : String :=
  if c = '"' then "\\\""
  else if c = '\\' then "\\\\"
  else String.singleton c

/-- Applies a single-character replacer over a string. -/
def applyEscaper (esc : Char → String) (s : String) : String :=
  String.join (s.data.map esc)

/-- Embedding of escapeValue (cmd/csv2lineprotocol/main.go): int64 as
decimal with trailing i, uint64 with trailing u, float64 by its Go fmt
text, bool as true/false, strings through the given replacer, time as
its UnixNano with trailing i; any other dynamic type hits the panic
branch, modelled as none. -/
def escapeValue (v : GoVal) (esc : Char → String) : Option String :=
  match v with
  | .i64 n => some (toString n ++ "i")
  | .u64 n => some (toString n ++ "u")
  | .f64 x =>
    some (match x with
          | .finite t => t
          | .posInf => "+Inf"
          | .negInf => "-Inf"
          | .nan => "NaN")
  | .str s => some (applyEscaper esc s)
  | .bool b => some (if b then "true" else "false")
  | .time t => some (toString t ++ "i")
  | .other _ => none

/-- The value-column switch of writeLineProtocol: int64 with trailing i,
uint64 with trailing u, float64 as Go fmt text, strings double-quoted
through stringFieldEscaper, bool as true/false, time as bare UnixNano;
any other dynamic type is the returned unexpected-value-type error. -/
def encodeValueField (v : GoVal) : Except LPErr String :=
  match v with
  | .i64 n => .ok (toString n ++ "i")
  | .u64 n => .ok (toString n ++ "u")
  | .f64 x =>
    .ok (match x with
         | .finite t => t
         | .posInf => "+Inf"
         | .negInf => "-Inf"
         | .nan => "NaN")
  | .str s => .ok ("\"" ++ applyEscaper escStrFieldChar s ++ "\"")
  | .bool b => .ok (if b then "true" else "false")
  | .time t => .ok (toString t)
  | .other d => .error (.badValueKind d)

/-- Outcome of the encoder including the two abnormal exits of the Go
code: a returned error, or a panic from escapeValue or from the time
type assertion. -/
inductive LPOut : Type
  | ok (s : String)
  | err (e : LPErr)
  | panic (site : String)
deriving DecidableEq, Repr

/-- Row value at a tableInfo index (the Go indexing panics out of range;
the sentinel other value feeds the modelled panic paths). -/
def rowAt (row : List GoVal) (i : Int) : GoVal :=
  (row.get? i.toNat).getD (.other "index out of range")

/-- The tag loop of writeLineProtocol: for each tag, a comma, the
escaped tag name, an equals sign and the escaped tag value. -/
def encodeTags (pairs : List (String × Nat)) (row : List GoVal) :
    Option String :=
  match pairs with
  | [] => some ""
  | (tagName, i) :: rest =>
    match escapeValue (rowAt row (i : Int)) escTagChar with
    | none => none
    | some v =>
      match encodeTags rest row with
      | none => none
      | some restS =>
        some ("," ++ applyEscaper escTagChar tagName ++ "=" ++ v ++ restS)

/-- One line of writeLineProtocol: measurement, tags, space, field name,
equals, value, space, timestamp, newline. -/
def encodeRow (info : TableInfo) (row : List GoVal) : LPOut :=
  match escapeValue (rowAt row info.measurement) escMeasChar with
  | none => .panic "measurement"
  | some m =>
    match encodeTags (info.tagNames.zip info.tagIndexes) row with
    | none => .panic "tag value"
    | some tags =>
      match escapeValue (rowAt row info.field) escTagChar with
      | none => .panic "field name"
      | some f =>
        match encodeValueField (rowAt row info.value) with
        | .error e => .err e
        | .ok valS =>
          match rowAt row info.time with
          | .time t =>
            .ok (m ++ tags ++ " " ++ f ++ "=" ++ valS ++ " " ++ toString t ++ "\n")
          | _ => .panic "time assertion"

/-- All rows of one table, concatenated. -/
def encodeRows (info : TableInfo) : List (List GoVal) → LPOut
  | [] => .ok ""
  | row :: rest =>
    match encodeRow info row with
    | .ok s =>
      match encodeRows info rest with
      | .ok t => .ok (s ++ t)
      | x => x
    | x => x

/-- A decoded table as the line-protocol encoder consumes it: the
columns from Reader.Columns and the rows from Reader.Row. -/
structure ACTable : Type where
  columns : List ACColumn
  rows : List (List GoVal)
deriving DecidableEq, Repr

/-- Embedding of writeLineProtocol over the table sequence.  Output
already flushed before a failure is not modelled; no claim concerns it. -/
def writeLineProtocol : List ACTable → LPOut
  | [] => .ok ""
  | t :: ts =>
    match tableInfoForColumns t.columns with
    | .error e => .err e
    | .ok info =>
      match encodeRows info t.rows with
      | .ok s =>
        match writeLineProtocol ts with
        | .ok restS => .ok (s ++ restS)
        | x => x
      | x => x

/-- The claim C1 input, record by record: the CSV text
#datatype,string,long / #group,false,false / ,value / m,1 / m,2. -/
def c1rows : List (List String) :=
  [["#datatype", "string", "long"],
   ["#group", "false", "false"],
   ["", "value"],
   ["m", "1"],
   ["m", "2"]]

/-- The C1 input with all header and data rows aligned to two fields:
#datatype,long / #group,false / ,value / m,1 / m,2. -/
def c1aligned : List (List String) :=
  [["#datatype", "long"],
   ["#group", "false"],
   ["", "value"],
   ["m", "1"],
   ["m", "2"]]

/-- The aligned C1 input with empty field text in the empty-named
column: #datatype,long / #group,false / ,value / ,1 / ,2. -/
def c1alignedEmpty : List (List String) :=
  [["#datatype", "long"],
   ["#group", "false"],
   ["", "value"],
   ["", "1"],
   ["", "2"]]

/-- The table the decoder produces for c1aligned. -/
def c1tableA : Table :=
  { columns := [("value",
      { index := 1, name := "value", group := false, default := none,
        type := "long" })],
    rows := [[("", .str "m"), ("value", .i64 1)],
             [("", .str "m"), ("value", .i64 2)]] }

/-- The table the decoder produces for c1alignedEmpty. -/
def c1tableB : Table :=
  { columns := [("value",
      { index := 1, name := "value", group := false, default := none,
        type := "long" })],
    rows := [[("value", .i64 1)], [("value", .i64 2)]] }

/-- Claim C1 counterexample: on the exact input of the claim the decoder
produces no table at all; the header rows have three fields but the name
row has two, so readHeader fails with the inconsistent-table-header
error, refuting both the claimed one-table result and the claimed rows. -/
theorem claimC1_cex :
    decodeCSV c1rows = ([], some (.inconsistentHeader 2 3)) := by decide

/-- Claim C1 as amended: the claimed input itself fails with the header
field-count error; on the aligned variant a column with empty name and
no default does contribute the key (empty string) when its field text is
non-empty (rows of the form m,1), and the claimed rows (only the key
value) appear exactly when the field text of the empty-named column is
empty (rows of the form ,1). -/
theorem claimC1_amended :
    decodeCSV c1rows = ([], some (.inconsistentHeader 2 3))
    ∧ decodeCSV c1aligned = ([c1tableA], none)
    ∧ decodeCSV c1alignedEmpty = ([c1tableB], none) := by
  refine ⟨by decide, by decide, by decide⟩

/-- UnixNano of 2023-01-01T00:00:00Z, derived from the civil-days
computation. -/
def t2023 : Int := daysFromCivil 2023 1 1 * 86400 * 1000000000

/-- The claim C3 columns. -/
def c3cols : List ACColumn :=
  [⟨"_measurement", "string"⟩, ⟨"_field", "string"⟩, ⟨"_value", "double"⟩,
   ⟨"_time", "dateTime:RFC3339"⟩, ⟨"host", "tag"⟩]

/-- The claim C3 row: cpu, temp, 1.5, 2023-01-01T00:00:00Z, a. -/
def c3row : List GoVal :=
  [.str "cpu", .str "temp", .f64 (.finite "1.5"), .time t2023, .str "a"]

/-- Claim C3: the one-table one-row line-protocol encoding renders
exactly cpu,host=a temp=1.5 1672531200000000000 with a trailing newline;
in addition the timestamp value is precisely what the registered RFC3339
layout parses from the text 2023-01-01T00:00:00Z. -/
theorem claimC3 :
    writeLineProtocol [⟨c3cols, [c3row]⟩] =
      .ok "cpu,host=a temp=1.5 1672531200000000000\n"
    ∧ rfc3339ToNano "2023-01-01T00:00:00Z" = some t2023 := by
  refine ⟨by decide, by decide⟩

/-- The claim C5 input: two annotation-delimited tables, the first with
defaults x and 7, the second with the same column names but its own
schema (both typed string, no defaults). -/
def c5rows : List (List String) :=
  [["#datatype", "string", "long"],
   ["#default", "x", "7"],
   ["name", "a", "b"],
   ["r", "", ""],
   ["#datatype", "string", "string"],
   ["name", "a", "b"],
   ["s", "", ""]]

/-- The first decoded C5 table: empty fields take the defaults x and 7. -/
def c5table1 : Table :=
  { columns :=
      [("name", { index := 0, name := "name", group := false, default := none,
                  type := "" }),
       ("a", { index := 1, name := "a", group := false,
               default := some (.str "x"), type := "string" }),
       ("b", { index := 2, name := "b", group := false,
               default := some (.i64 7), type := "long" })],
    rows := [[("name", .str "r"), ("a", .str "x"), ("b", .i64 7)]] }

/-- The second decoded C5 table: no defaults, both data columns typed
string, so the empty fields decode to empty strings; nothing of the
first schema is visible. -/
def c5table2 : Table :=
  { columns :=
      [("name", { index := 0, name := "name", group := false, default := none,
                  type := "" }),
       ("a", { index := 1, name := "a", group := false, default := none,
               type := "string" }),
       ("b", { index := 2, name := "b", group := false, default := none,
               type := "string" })],
    rows := [[("name", .str "s"), ("a", .str ""), ("b", .str "")]] }

/-- The columns of the first C5 table as readTableRows receives them
(indices are only set later, in the columns map). -/
def c5t1cols : List Column :=
  [{ index := 0, name := "name", group := false, default := none, type := "" },
   { index := 0, name := "a", group := false, default := some (.str "x"),
     type := "string" },
   { index := 0, name := "b", group := false, default := some (.i64 7),
     type := "long" }]

/-- A reader standing just before the second table boundary, after the
one data row of the first table (line 4). -/
def c5midReader : CsvReader :=
  { hasPeeked := false, row := [], err := none,
    rows := [["#datatype", "string", "string"], ["name", "a", "b"],
             ["s", "", ""]],
    line := 4 }

/-- The first decoded C5 row. -/
def c5row1 : RowMap := [("name", .str "r"), ("a", .str "x"), ("b", .i64 7)]

/-- Claim C5: the stream decodes into the two independent tables above
(the second observes none of the first table's types or defaults), and
the row decoder, peeking the hash row after a data row, stops with that
row still buffered and unconsumed: the returned reader has it memoized
for the next table's header. -/
theorem claimC5 :
    decodeCSV c5rows = ([c5table1, c5table2], none)
    ∧ readTableRowsF 5 c5midReader c5t1cols [c5row1] =
        (([c5row1], none),
         { hasPeeked := true, row := ["#datatype", "string", "string"],
           err := none, rows := [["name", "a", "b"], ["s", "", ""]],
           line := 5 }) := by
  refine ⟨by decide, by decide⟩

/-- Claim C6: Peek is idempotent (a second Peek returns the same result
and the same reader state), Read after Peek returns exactly the peeked
row and error and only clears the lookahead flag, and the line counter
moves exactly once per physical row whichever path reaches it first:
from a fresh reader, Peek advances the line by one, the following Read
leaves it unchanged, and a direct Read advances it by one. -/
theorem claimC6 (r : CsvReader) :
    (r.peek.2).peek = r.peek
    ∧ (r.peek.2).read = (r.peek.1, { r.peek.2 with hasPeeked := false })
    ∧ (r.hasPeeked = false →
        (r.peek.2).line = r.line + 1
        ∧ ((r.peek.2).read.2).line = r.line + 1
        ∧ (r.read.2).line = r.line + 1) := by
  cases hp : r.hasPeeked <;>
    simp [CsvReader.peek, CsvReader.read, hp]

/-- A fresh two-record reader for the C6 witness. -/
def c6reader : CsvReader :=
  { hasPeeked := false, row := [], err := none, rows := [["a"], ["b"]],
    line := 0 }

/-- Witness for claim C6 at a concrete fresh reader. -/
theorem claimC6_witness :
    c6reader.hasPeeked = false
    ∧ ((c6reader.peek.2).read.2).line = c6reader.line + 1 :=
  ⟨rfl, ((claimC6 c6reader).2.2 rfl).2.1⟩

/-- Whether a dynamic value is outside the six kinds the program
handles. -/
def GoVal.isOther : GoVal → Bool
  | .other _ => true
  | _ => false

/-- Every value convertToType returns is one of the six handled kinds:
int64, uint64, float64, string, bool or time.Time. -/
theorem convertToType_ok_not_other (s typ : String) (v : GoVal)
    (h : convertToType s typ = .ok v) : v.isOther = false := by
  unfold convertToType at h
  repeat' split at h
  all_goals cases h
  all_goals rfl

/-- Claim C4: converting with declared type double fails exactly when the
float parse fails; a successful parse of an infinite or NaN value yields
the original text as a string; a successful finite parse yields the
float; and no float value the converter returns is non-finite. -/
theorem claimC4 (s : String) :
    ((convertToType s "double").isOk = false ↔ parseFloatM s = none)
    ∧ (∀ x, parseFloatM s = some x → x.isNonFinite = true →
        convertToType s "double" = .ok (.str s))
    ∧ (∀ x, parseFloatM s = some x → x.isNonFinite = false →
        convertToType s "double" = .ok (.f64 x))
    ∧ (∀ x, convertToType s "double" = .ok (.f64 x) →
        x.isNonFinite = false) := by
  have hred : convertToType s "double" =
      (match parseFloatM s with
       | none => .error (.badFloat s)
       | some x => if x.isNonFinite then .ok (.str s) else .ok (.f64 x)) := by
    simp [convertToType]
  rw [hred]
  cases hp : parseFloatM s with
  | none => simp [Except.isOk, Except.toBool]
  | some x => cases x <;> simp [GoFloat.isNonFinite, Except.isOk, Except.toBool]

/-- Witness for claim C4 at the text inf, which parses to positive
infinity and is returned as its original string form. -/
theorem claimC4_witness :
    parseFloatM "inf" = some .posInf
    ∧ convertToType "inf" "double" = .ok (.str "inf") :=
  ⟨by decide, (claimC4 "inf").2.1 .posInf (by decide) rfl⟩

/-- Claim C10: every value the decoder's converter can produce is one of
the six kinds escapeValue handles, so escapeValue never reaches its
panic branch on decoder-produced values, whatever replacer is in use:
measurement and tag encoding is total over them. -/
theorem claimC10 (s typ : String) (v : GoVal) (esc : Char → String)
    (h : convertToType s typ = .ok v) :
    (escapeValue v esc).isSome = true := by
  have hv := convertToType_ok_not_other s typ v h
  cases v <;> simp [escapeValue]
  cases hv

/-- Witness for claim C10 at a concrete conversion. -/
theorem claimC10_witness :
    (escapeValue (.i64 1) escTagChar).isSome = true :=
  claimC10 "1" "long" (.i64 1) escTagChar (by rfl)

/-- One readTableRows iteration from a fresh (no lookahead) reader at end
of input: return the rows so far; the failed peek stays memoized. -/
theorem rtr_step_nil (n : Nat) (b : List String) (be : Option Unit) (L : Nat)
    (cols : List Column) (acc : List RowMap) :
    readTableRowsF (n + 1) ⟨false, b, be, [], L⟩ cols acc =
      ((acc, none), ⟨true, [], some (), [], L + 1⟩) := rfl

/-- One readTableRows iteration from a fresh reader with a next record:
stop unconsumed on a hash row, else consume and either fail the count
check, fail a conversion, or append the row and continue. -/
theorem rtr_step_cons (n : Nat) (b : List String) (be : Option Unit)
    (row : List String) (rs : List (List String)) (L : Nat)
    (cols : List Column) (acc : List RowMap) :
    readTableRowsF (n + 1) ⟨false, b, be, row :: rs, L⟩ cols acc =
      (if strStarts (row.headD "") "#" then
        ((acc, none), ⟨true, row, none, rs, L + 1⟩)
      else if row.length ≠ cols.length then
        ((acc, some (.inconsistentColumns (L + 1))), ⟨false, row, none, rs, L + 1⟩)
      else
        match buildRow (row.zip cols) [] with
        | .error (v, t) =>
          ((acc, some (.cannotParse v t (L + 1))), ⟨false, row, none, rs, L + 1⟩)
        | .ok m => readTableRowsF n ⟨false, row, none, rs, L + 1⟩ cols (acc ++ [m])) := rfl

/-- A conversion failure in the per-field loop names a field text and
declared type that really occur together in the row at the same
position, and on which convertToType fails. -/
theorem buildRow_error_mem (l : List (String × Column)) (m : RowMap)
    (v t : String) (h : buildRow l m = .error (v, t)) :
    ∃ col, (v, col) ∈ l ∧ col.type = t ∧ ∃ e, convertToType v t = .error e := by
  induction l generalizing m with
  | nil => cases h
  | cons p rest ih =>
    obtain ⟨val, col⟩ := p
    rw [buildRow] at h
    split at h
    · obtain ⟨c, hm, ht, he⟩ := ih _ h
      exact ⟨c, List.mem_cons_of_mem _ hm, ht, he⟩
    · split at h
      · obtain ⟨c, hm, ht, he⟩ := ih _ h
        exact ⟨c, List.mem_cons_of_mem _ hm, ht, he⟩
      · split at h
        · rename_i e heq
          cases h
          exact ⟨col, List.mem_cons_self _ _, rfl, e, heq⟩
        · obtain ⟨c, hm, ht, he⟩ := ih _ h
          exact ⟨c, List.mem_cons_of_mem _ hm, ht, he⟩

/-- If the row decoder, started on a fresh reader at line L, returns the
inconsistent-columns error with line l, then the record at (0-based)
index l - L - 1 of the remaining input exists, does not start a new
table, and has a field count different from the column count. -/
theorem rtr_sound_cols (fuel : Nat) (b : List String) (be : Option Unit)
    (rs : List (List String)) (L : Nat) (cols : List Column)
    (acc : List RowMap) (l : Nat)
    (h : (readTableRowsF fuel ⟨false, b, be, rs, L⟩ cols acc).1.2 =
      some (.inconsistentColumns l)) :
    ∃ i row, rs.get? i = some row ∧ l = L + 1 + i
      ∧ strStarts (row.headD "") "#" = false
      ∧ row.length ≠ cols.length := by
  induction fuel generalizing b be rs L acc with
  | zero => cases h
  | succ n ih =>
    cases rs with
    | nil => rw [rtr_step_nil] at h; cases h
    | cons row rest =>
      rw [rtr_step_cons] at h
      split at h
      · cases h
      · rename_i hhash
        split at h
        · rename_i hlen
          simp only at h
          cases h
          exact ⟨0, row, rfl, by omega, by simpa using hhash, hlen⟩
        · split at h
          · cases h
          · obtain ⟨i, row2, hget, hl, hh, hlen⟩ := ih _ _ _ _ _ h
            exact ⟨i + 1, row2, by simpa using hget, by omega, hh, hlen⟩

/-- If the row decoder, started on a fresh reader at line L, returns the
cannot-parse error with text v, type t and line l, then the record at
index l - L - 1 exists, is a consumed data row, contains the text v in a
position whose column declares type t, and convertToType really fails on
that text and type. -/
theorem rtr_sound_parse (fuel : Nat) (b : List String) (be : Option Unit)
    (rs : List (List String)) (L : Nat) (cols : List Column)
    (acc : List RowMap) (v t : String) (l : Nat)
    (h : (readTableRowsF fuel ⟨false, b, be, rs, L⟩ cols acc).1.2 =
      some (.cannotParse v t l)) :
    ∃ i row, rs.get? i = some row ∧ l = L + 1 + i
      ∧ strStarts (row.headD "") "#" = false
      ∧ ∃ col, (v, col) ∈ row.zip cols ∧ col.type = t
      ∧ ∃ e, convertToType v t = .error e := by
  induction fuel generalizing b be rs L acc with
  | zero => cases h
  | succ n ih =>
    cases rs with
    | nil => rw [rtr_step_nil] at h; cases h
    | cons row rest =>
      rw [rtr_step_cons] at h
      split at h
      · cases h
      · rename_i hhash
        split at h
        · cases h
        · split at h
          · rename_i v2 t2 heq
            simp only at h
            cases h
            obtain ⟨c, hm, ht, he⟩ := buildRow_error_mem _ _ _ _ heq
            exact ⟨0, row, rfl, by omega, by simpa using hhash, c, hm, ht, he⟩
          · obtain ⟨i, row2, hget, hl, hh, hrest⟩ := ih _ _ _ _ _ h
            exact ⟨i + 1, row2, by simpa using hget, by omega, hh, hrest⟩

/-- Claim C7: a consumed data row (not starting a new table) whose field
count differs from the column count makes the row decoder fail at once
with the inconsistent-columns error carrying that row's line number,
L + 1 for a fresh reader at line L; and conversely, whenever the decoder
returns that error, the record at the named line exists, was a consumed
data row, and has a field count different from the column count, so a
row whose field count equals the column count never triggers it. -/
theorem claimC7 :
    (∀ (n : Nat) (b : List String) (be : Option Unit) (row : List String)
        (rs : List (List String)) (L : Nat) (cols : List Column)
        (acc : List RowMap),
        strStarts (row.headD "") "#" = false →
        row.length ≠ cols.length →
        readTableRowsF (n + 1) ⟨false, b, be, row :: rs, L⟩ cols acc =
          ((acc, some (.inconsistentColumns (L + 1))),
           ⟨false, row, none, rs, L + 1⟩))
    ∧ (∀ (fuel : Nat) (b : List String) (be : Option Unit)
        (rs : List (List String)) (L : Nat) (cols : List Column)
        (acc : List RowMap) (l : Nat),
        (readTableRowsF fuel ⟨false, b, be, rs, L⟩ cols acc).1.2 =
          some (.inconsistentColumns l) →
        ∃ i row, rs.get? i = some row ∧ l = L + 1 + i
          ∧ strStarts (row.headD "") "#" = false
          ∧ row.length ≠ cols.length) := by
  constructor
  · intro n b be row rs L cols acc hh hl
    rw [rtr_step_cons, if_neg (by simpa using hh), if_pos hl]
  · intro fuel b be rs L cols acc l h
    exact rtr_sound_cols fuel b be rs L cols acc l h

/-- Witness for claim C7: a two-field row against a one-column schema
fails with the error at line 1. -/
theorem claimC7_witness :
    readTableRowsF 2 ⟨false, [], none, [["a", "b"]], 0⟩ [emptyColumn] [] =
      (([], some (.inconsistentColumns 1)), ⟨false, ["a", "b"], none, [], 1⟩) :=
  claimC7.1 1 [] none ["a", "b"] [] 0 [emptyColumn] [] (by decide) (by decide)

/-- Indexing an enumFrom list. -/
theorem enumFrom_get {α : Type} :
    ∀ (cs : List α) (k j : Nat),
      (enumFrom k cs).get? j = (cs.get? j).map (fun a => (k + j, a)) := by
  intro cs
  induction cs with
  | nil => intro k j; simp [enumFrom]
  | cons a as ih =>
    intro k j
    cases j with
    | zero => simp [enumFrom]
    | succ j2 =>
      have hk : k + 1 + j2 = k + (j2 + 1) := by omega
      rw [enumFrom, List.get?_cons_succ, List.get?_cons_succ, ih (k + 1) j2,
        hk]

/-- Setting a default leaves every declared column type unchanged. -/
theorem colTypeAt_setDefault (cs : List Column) (i : Nat) (v : GoVal)
    (j : Nat) : colTypeAt (setDefault cs i v) j = colTypeAt cs j := by
  unfold colTypeAt setDefault
  rw [List.get?_map, enumFrom_get]
  cases hg : cs.get? j
  · rfl
  · simp only [Option.map_some']
    split <;> rfl

/-- A failure of the deferred defaults conversion names a default text
and declared type that really occur in the default row (at a non-label
index, with non-empty text, the type being that of the same-indexed
column), and on which convertToType really fails. -/
theorem convDefaults_error :
    ∀ (ds : List (Nat × String)) (cs : List Column) (d t : String)
      (e2 : ConvErr),
      convDefaultsFrom cs ds = .error (.cannotConvertDefault d t e2) →
      ∃ i, (i, d) ∈ ds ∧ i ≠ 0 ∧ d ≠ "" ∧ t = colTypeAt cs i
        ∧ convertToType d t = .error e2 := by
  intro ds
  induction ds with
  | nil => intro cs d t e2 h; cases h
  | cons p rest ih =>
    intro cs d t e2 h
    obtain ⟨i0, d0⟩ := p
    rw [convDefaultsFrom] at h
    split at h
    · obtain ⟨i, hm, hi, hd, ht, hc⟩ := ih cs d t e2 h
      exact ⟨i, List.mem_cons_of_mem _ hm, hi, hd, ht, hc⟩
    · rename_i hns
      push_neg at hns
      split at h
      · rename_i e heq
        cases h
        exact ⟨i0, List.mem_cons_self _ _, hns.1, hns.2, rfl, heq⟩
      · rename_i v heq
        obtain ⟨i, hm, hi, hd, ht, hc⟩ := ih _ d t e2 h
        rw [colTypeAt_setDefault] at ht
        exact ⟨i, List.mem_cons_of_mem _ hm, hi, hd, ht, hc⟩

/-- A header section whose first record has two fields and whose second
has three: the C2 counterexample input for the header mismatch error. -/
def c2hdr : List (List String) :=
  [["#datatype", "string"], ["#group", "false", "false"]]

/-- An input whose default value x cannot convert to the declared type
long: the C2 counterexample input for the default conversion error. -/
def c2def : List (List String) :=
  [["#datatype", "long"], ["#default", "x"], ["a", "b"]]

/-- Claim C2 counterexample: two fatal decode errors carry no input line
number at all.  The header field-count mismatch error carries only the
got and want counts, and the default-value conversion error carries only
the text, the type and the inner error, exactly as the fmt.Errorf format
strings at those two sites interpolate. -/
theorem claimC2_cex :
    decodeCSV c2hdr = ([], some (.inconsistentHeader 3 2))
    ∧ DErr.includesLine (.inconsistentHeader 3 2) = false
    ∧ decodeCSV c2def =
        ([], some (.cannotConvertDefault "x" "long" (.badInt "x")))
    ∧ DErr.includesLine (.cannotConvertDefault "x" "long" (.badInt "x")) =
        false := by
  exact ⟨by decide, rfl, by decide, rfl⟩

/-- Claim C2 as amended: the data-row field-count error and the value
conversion error do include the 1-based line number where the offending
row starts, and the value conversion error includes the offending text
and the declared type (all shown correct against the input); but the
header field-count mismatch error includes only the got and want counts
with no line number, and the default-value conversion error includes the
offending text and declared type (shown correct) with no line number. -/
theorem claimC2_amended :
    (∀ (fuel : Nat) (b : List String) (be : Option Unit)
        (rs : List (List String)) (L : Nat) (cols : List Column)
        (acc : List RowMap) (v t : String) (l : Nat),
        (readTableRowsF fuel ⟨false, b, be, rs, L⟩ cols acc).1.2 =
          some (.cannotParse v t l) →
        DErr.includesLine (.cannotParse v t l) = true
        ∧ ∃ i row, rs.get? i = some row ∧ l = L + 1 + i
          ∧ ∃ col, (v, col) ∈ row.zip cols ∧ col.type = t
          ∧ ∃ e, convertToType v t = .error e)
    ∧ (∀ (fuel : Nat) (b : List String) (be : Option Unit)
        (rs : List (List String)) (L : Nat) (cols : List Column)
        (acc : List RowMap) (l : Nat),
        (readTableRowsF fuel ⟨false, b, be, rs, L⟩ cols acc).1.2 =
          some (.inconsistentColumns l) →
        DErr.includesLine (.inconsistentColumns l) = true
        ∧ ∃ i row, rs.get? i = some row ∧ l = L + 1 + i)
    ∧ (∀ g w, DErr.includesLine (.inconsistentHeader g w) = false)
    ∧ (∀ (cs : List Column) (ds : List (Nat × String)) (d t : String)
        (e2 : ConvErr),
        convDefaultsFrom cs ds = .error (.cannotConvertDefault d t e2) →
        DErr.includesLine (.cannotConvertDefault d t e2) = false
        ∧ ∃ i, (i, d) ∈ ds ∧ i ≠ 0 ∧ d ≠ "" ∧ t = colTypeAt cs i
          ∧ convertToType d t = .error e2) := by
  refine ⟨?_, ?_, fun g w => rfl, ?_⟩
  · intro fuel b be rs L cols acc v t l h
    obtain ⟨i, row, hget, hl, _, hrest⟩ :=
      rtr_sound_parse fuel b be rs L cols acc v t l h
    exact ⟨rfl, i, row, hget, hl, hrest⟩
  · intro fuel b be rs L cols acc l h
    obtain ⟨i, row, hget, hl, _, _⟩ :=
      rtr_sound_cols fuel b be rs L cols acc l h
    exact ⟨rfl, i, row, hget, hl⟩
  · intro cs ds d t e2 h
    exact ⟨rfl, convDefaults_error ds cs d t e2 h⟩

/-- A single column declared long, for the C2 witness. -/
def c2longCol : Column := { type := "long" }

/-- Witness for claim C2 on a concrete conversion failure: the text x at
line 1 with declared type long. -/
theorem claimC2_witness :
    DErr.includesLine (.cannotParse "x" "long" 1) = true
    ∧ ∃ i row, [["x"]].get? i = some row ∧ 1 = 0 + 1 + i
      ∧ ∃ col, ("x", col) ∈ row.zip [c2longCol] ∧ col.type = "long"
      ∧ ∃ e, convertToType "x" "long" = .error e :=
  claimC2_amended.1 2 [] none [["x"]] 0 [c2longCol] [] "x" "long" 1 (by decide)

/-- A column whose reserved name carries a type the encoder rejects:
_measurement and _field must be string, _time must start with dateTime:
(_value accepts any type). -/
def colBadP (c : ACColumn) : Prop :=
  (c.name = "_measurement" ∧ c.type ≠ "string")
  ∨ (c.name = "_field" ∧ c.type ≠ "string")
  ∨ (c.name = "_time" ∧ ¬ strStarts c.type "dateTime:")

instance (c : ACColumn) : Decidable (colBadP c) := by
  unfold colBadP; infer_instance

/-- The schema shape the claim describes: no reserved column mistyped
and all four reserved columns present. -/
def lpSchemaOkP (cols : List ACColumn) : Prop :=
  (∀ c ∈ cols, ¬ colBadP c)
  ∧ (∃ c ∈ cols, c.name = "_measurement")
  ∧ (∃ c ∈ cols, c.name = "_field")
  ∧ (∃ c ∈ cols, c.name = "_value")
  ∧ (∃ c ∈ cols, c.name = "_time")

instance (cols : List ACColumn) : Decidable (lpSchemaOkP cols) := by
  unfold lpSchemaOkP; infer_instance

/-- A universally quantified property of the columns transfers across
enumFrom. -/
theorem forall_enumFrom {α : Type} (P : α → Prop) :
    ∀ (xs : List α) (k : Nat), (∀ p ∈ enumFrom k xs, P p.2) ↔ ∀ a ∈ xs, P a := by
  intro xs
  induction xs with
  | nil => intro k; simp [enumFrom]
  | cons a as ih =>
    intro k
    rw [enumFrom, List.forall_mem_cons, List.forall_mem_cons, ih (k + 1)]

/-- An existentially quantified property of the columns transfers across
enumFrom. -/
theorem exists_enumFrom {α : Type} (P : α → Prop) :
    ∀ (xs : List α) (k : Nat), (∃ p ∈ enumFrom k xs, P p.2) ↔ ∃ a ∈ xs, P a := by
  intro xs
  induction xs with
  | nil => intro k; simp [enumFrom]
  | cons a as ih =>
    intro k
    rw [enumFrom, List.exists_mem_cons_iff, List.exists_mem_cons_iff,
      ih (k + 1)]

/-- The tableInfoForColumns loop succeeds exactly when no column is
reserved-but-mistyped. -/
theorem tifcLoop_isOk (l : List (Nat × ACColumn)) :
    ∀ info, (tifcLoop l info).isOk = true ↔ ∀ p ∈ l, ¬ colBadP p.2 := by
  induction l with
  | nil => intro info; simp [tifcLoop, Except.isOk, Except.toBool]
  | cons p rest ih =>
    intro info
    obtain ⟨i, col⟩ := p
    rw [tifcLoop]
    by_cases h1 : col.name = "_measurement"
    · rw [if_pos h1]
      by_cases ht : col.type = "string"
      · rw [if_neg (by simp [ht]), ih]
        simp [List.forall_mem_cons, colBadP, h1, ht]
      · rw [if_pos ht]
        simp [Except.isOk, Except.toBool, List.forall_mem_cons, colBadP, h1, ht]
    · rw [if_neg h1]
      by_cases h2 : col.name = "_field"
      · rw [if_pos h2]
        by_cases ht : col.type = "string"
        · rw [if_neg (by simp [ht]), ih]
          simp [List.forall_mem_cons, colBadP, h1, h2, ht]
        · rw [if_pos ht]
          simp [Except.isOk, Except.toBool, List.forall_mem_cons, colBadP, h1,
            h2, ht]
      · rw [if_neg h2]
        by_cases h3 : col.name = "_value"
        · rw [if_pos h3, ih]
          simp [List.forall_mem_cons, colBadP, h1, h2, h3]
        · rw [if_neg h3]
          by_cases h4 : col.name = "_time"
          · rw [if_pos h4]
            by_cases hs : strStarts col.type "dateTime:"
            · rw [if_neg (by simp [hs]), ih]
              simp [List.forall_mem_cons, colBadP, h1, h2, h4, hs]
            · rw [if_pos hs]
              simp [Except.isOk, Except.toBool, List.forall_mem_cons, colBadP,
                h1, h2, h4, hs]
          · rw [if_neg h4]
            by_cases h5 : col.name = ""
            · rw [if_pos h5, ih]
              simp [List.forall_mem_cons, colBadP, h1, h2, h4, h5]
            · rw [if_neg h5, ih]
              simp [List.forall_mem_cons, colBadP, h1, h2, h4]

/-- After a successful tableInfoForColumns loop, a reserved index is
still the -1 sentinel exactly when it was -1 before and no column of the
segment bears that reserved name. -/
theorem tifcLoop_found (l : List (Nat × ACColumn)) :
    ∀ info info', tifcLoop l info = .ok info' →
      (info'.measurement = -1 ↔
        info.measurement = -1 ∧ ∀ p ∈ l, p.2.name ≠ "_measurement")
      ∧ (info'.field = -1 ↔
        info.field = -1 ∧ ∀ p ∈ l, p.2.name ≠ "_field")
      ∧ (info'.value = -1 ↔
        info.value = -1 ∧ ∀ p ∈ l, p.2.name ≠ "_value")
      ∧ (info'.time = -1 ↔
        info.time = -1 ∧ ∀ p ∈ l, p.2.name ≠ "_time") := by
  induction l with
  | nil =>
    intro info info' h
    cases h
    simp
  | cons p rest ih =>
    intro info info' h
    obtain ⟨i, col⟩ := p
    rw [tifcLoop] at h
    have hne : ¬((i : Int) = -1) := by omega
    by_cases h1 : col.name = "_measurement"
    · rw [if_pos h1] at h
      split at h
      · cases h
      · obtain ⟨hm, hf, hv, htime⟩ := ih _ _ h
        refine ⟨?_, ?_, ?_, ?_⟩
        · rw [hm]; simp [List.forall_mem_cons, h1, hne]
        · rw [hf]; simp [List.forall_mem_cons, h1]
        · rw [hv]; simp [List.forall_mem_cons, h1]
        · rw [htime]; simp [List.forall_mem_cons, h1]
    · rw [if_neg h1] at h
      by_cases h2 : col.name = "_field"
      · rw [if_pos h2] at h
        split at h
        · cases h
        · obtain ⟨hm, hf, hv, htime⟩ := ih _ _ h
          refine ⟨?_, ?_, ?_, ?_⟩
          · rw [hm]; simp [List.forall_mem_cons, h2]
          · rw [hf]; simp [List.forall_mem_cons, h2, hne]
          · rw [hv]; simp [List.forall_mem_cons, h2]
          · rw [htime]; simp [List.forall_mem_cons, h2]
      · rw [if_neg h2] at h
        by_cases h3 : col.name = "_value"
        · rw [if_pos h3] at h
          obtain ⟨hm, hf, hv, htime⟩ := ih _ _ h
          refine ⟨?_, ?_, ?_, ?_⟩
          · rw [hm]; simp [List.forall_mem_cons, h3]
          · rw [hf]; simp [List.forall_mem_cons, h3]
          · rw [hv]; simp [List.forall_mem_cons, h3, hne]
          · rw [htime]; simp [List.forall_mem_cons, h3]
        · rw [if_neg h3] at h
          by_cases h4 : col.name = "_time"
          · rw [if_pos h4] at h
            split at h
            · cases h
            · obtain ⟨hm, hf, hv, htime⟩ := ih _ _ h
              refine ⟨?_, ?_, ?_, ?_⟩
              · rw [hm]; simp [List.forall_mem_cons, h4]
              · rw [hf]; simp [List.forall_mem_cons, h4]
              · rw [hv]; simp [List.forall_mem_cons, h4]
              · rw [htime]; simp [List.forall_mem_cons, h4, hne]
          · rw [if_neg h4] at h
            by_cases h5 : col.name = ""
            · rw [if_pos h5] at h
              obtain ⟨hm, hf, hv, htime⟩ := ih _ _ h
              refine ⟨?_, ?_, ?_, ?_⟩
              · rw [hm]; simp [List.forall_mem_cons, h5]
              · rw [hf]; simp [List.forall_mem_cons, h5]
              · rw [hv]; simp [List.forall_mem_cons, h5]
              · rw [htime]; simp [List.forall_mem_cons, h5]
            · rw [if_neg h5] at h
              obtain ⟨hm, hf, hv, htime⟩ := ih _ _ h
              refine ⟨?_, ?_, ?_, ?_⟩
              · rw [hm]; simp [List.forall_mem_cons, h1]
              · rw [hf]; simp [List.forall_mem_cons, h2]
              · rw [hv]; simp [List.forall_mem_cons, h3]
              · rw [htime]; simp [List.forall_mem_cons, h4]

/-- A tableInfoForColumns loop error is a wrong-type error naming a
reserved name and type that really occur together on some column of the
segment, which is thereby a bad column. -/
theorem tifcLoop_error (l : List (Nat × ACColumn)) :
    ∀ info e, tifcLoop l info = .error e →
      ∃ p ∈ l, colBadP p.2 ∧
        ((e = .wrongType "_measurement" p.2.type ∧ p.2.name = "_measurement")
         ∨ (e = .wrongType "_field" p.2.type ∧ p.2.name = "_field")
         ∨ (e = .wrongType "_time" p.2.type ∧ p.2.name = "_time")) := by
  induction l with
  | nil => intro info e h; cases h
  | cons p rest ih =>
    intro info e h
    obtain ⟨i, col⟩ := p
    rw [tifcLoop] at h
    by_cases h1 : col.name = "_measurement"
    · rw [if_pos h1] at h
      split at h
      · rename_i ht
        cases h
        exact ⟨(i, col), List.mem_cons_self _ _,
          Or.inl ⟨h1, ht⟩, Or.inl ⟨rfl, h1⟩⟩
      · obtain ⟨q, hq, hbad, he⟩ := ih _ _ h
        exact ⟨q, List.mem_cons_of_mem _ hq, hbad, he⟩
    · rw [if_neg h1] at h
      by_cases h2 : col.name = "_field"
      · rw [if_pos h2] at h
        split at h
        · rename_i ht
          cases h
          exact ⟨(i, col), List.mem_cons_self _ _,
            Or.inr (Or.inl ⟨h2, ht⟩), Or.inr (Or.inl ⟨rfl, h2⟩)⟩
        · obtain ⟨q, hq, hbad, he⟩ := ih _ _ h
          exact ⟨q, List.mem_cons_of_mem _ hq, hbad, he⟩
      · rw [if_neg h2] at h
        by_cases h3 : col.name = "_value"
        · rw [if_pos h3] at h
          obtain ⟨q, hq, hbad, he⟩ := ih _ _ h
          exact ⟨q, List.mem_cons_of_mem _ hq, hbad, he⟩
        · rw [if_neg h3] at h
          by_cases h4 : col.name = "_time"
          · rw [if_pos h4] at h
            split at h
            · rename_i ht
              cases h
              exact ⟨(i, col), List.mem_cons_self _ _,
                Or.inr (Or.inr ⟨h4, ht⟩), Or.inr (Or.inr ⟨rfl, h4⟩)⟩
            · obtain ⟨q, hq, hbad, he⟩ := ih _ _ h
              exact ⟨q, List.mem_cons_of_mem _ hq, hbad, he⟩
          · rw [if_neg h4] at h
            by_cases h5 : col.name = ""
            · rw [if_pos h5] at h
              obtain ⟨q, hq, hbad, he⟩ := ih _ _ h
              exact ⟨q, List.mem_cons_of_mem _ hq, hbad, he⟩
            · rw [if_neg h5] at h
              obtain ⟨q, hq, hbad, he⟩ := ih _ _ h
              exact ⟨q, List.mem_cons_of_mem _ hq, hbad, he⟩

/-- The second component of an enumFrom member is a member. -/
theorem mem_enumFrom_snd {α : Type} :
    ∀ (xs : List α) (k : Nat) (p : Nat × α), p ∈ enumFrom k xs → p.2 ∈ xs := by
  intro xs
  induction xs with
  | nil => intro k p h; cases h
  | cons a as ih =>
    intro k p h
    rw [enumFrom] at h
    rcases List.mem_cons.mp h with h1 | h1
    · subst h1; exact List.mem_cons_self _ _
    · exact List.mem_cons_of_mem _ (ih (k + 1) p h1)

/-- Every member occurs in enumFrom at some index. -/
theorem mem_enumFrom_of_mem {α : Type} :
    ∀ (xs : List α) (k : Nat) (a : α), a ∈ xs → ∃ i, (i, a) ∈ enumFrom k xs := by
  intro xs
  induction xs with
  | nil => intro k a h; cases h
  | cons x as ih =>
    intro k a h
    rcases List.mem_cons.mp h with h1 | h1
    · subst h1; exact ⟨k, List.mem_cons_self _ _⟩
    · obtain ⟨i, hi⟩ := ih (k + 1) a h1
      exact ⟨i, List.mem_cons_of_mem _ hi⟩

/-- Claim C8: line-protocol table-info construction fails exactly when a
reserved column is absent or mistyped: it succeeds iff no column named
_measurement or _field has a type other than string, no column named
_time has a type not starting with dateTime:, and all four reserved
names are present (_value with any type); moreover a wrong-type error
names a reserved name and type occurring together on a real column, and
a missing error names a reserved name borne by no column. -/
theorem claimC8 (cols : List ACColumn) :
    ((tableInfoForColumns cols).isOk = true ↔ lpSchemaOkP cols)
    ∧ (∀ c g, tableInfoForColumns cols = .error (.wrongType c g) →
        ∃ col ∈ cols, col.name = c ∧ col.type = g ∧ colBadP col)
    ∧ (∀ c, tableInfoForColumns cols = .error (.missing c) →
        (∀ col ∈ cols, col.name ≠ c)
        ∧ (c = "_measurement" ∨ c = "_field" ∨ c = "_value" ∨ c = "_time")) := by
  unfold tableInfoForColumns
  cases heq : tifcLoop (enumFrom 0 cols) {} with
  | error e =>
    obtain ⟨p, hp, hbad, hforms⟩ := tifcLoop_error _ _ _ heq
    have hpm : p.2 ∈ cols := mem_enumFrom_snd _ _ _ hp
    refine ⟨?_, ?_, ?_⟩
    · constructor
      · intro h; simp [Except.isOk, Except.toBool] at h
      · intro hok; exact absurd hbad (hok.1 p.2 hpm)
    · intro c g hcg
      injection hcg with h2
      subst h2
      rcases hforms with ⟨he, hn⟩ | ⟨he, hn⟩ | ⟨he, hn⟩ <;>
        (injection he with hce hge; subst hce; subst hge;
         exact ⟨p.2, hpm, hn, rfl, hbad⟩)
    · intro c hc
      injection hc with h2
      subst h2
      rcases hforms with ⟨he, _⟩ | ⟨he, _⟩ | ⟨he, _⟩ <;> cases he
  | ok info =>
    have hgood : ∀ c ∈ cols, ¬ colBadP c :=
      (forall_enumFrom _ _ _).mp
        ((tifcLoop_isOk _ _).mp (by rw [heq]; rfl))
    obtain ⟨hm, hf, hv, htime⟩ := tifcLoop_found _ _ _ heq
    have hm' : info.measurement = -1 ↔ ∀ c ∈ cols, c.name ≠ "_measurement" := by
      rw [hm]
      constructor
      · intro h c hc
        obtain ⟨i, hi⟩ := mem_enumFrom_of_mem cols 0 c hc
        exact h.2 (i, c) hi
      · intro h
        exact ⟨rfl, fun p hp => h p.2 (mem_enumFrom_snd _ _ _ hp)⟩
    have hf' : info.field = -1 ↔ ∀ c ∈ cols, c.name ≠ "_field" := by
      rw [hf]
      constructor
      · intro h c hc
        obtain ⟨i, hi⟩ := mem_enumFrom_of_mem cols 0 c hc
        exact h.2 (i, c) hi
      · intro h
        exact ⟨rfl, fun p hp => h p.2 (mem_enumFrom_snd _ _ _ hp)⟩
    have hv' : info.value = -1 ↔ ∀ c ∈ cols, c.name ≠ "_value" := by
      rw [hv]
      constructor
      · intro h c hc
        obtain ⟨i, hi⟩ := mem_enumFrom_of_mem cols 0 c hc
        exact h.2 (i, c) hi
      · intro h
        exact ⟨rfl, fun p hp => h p.2 (mem_enumFrom_snd _ _ _ hp)⟩
    have ht' : info.time = -1 ↔ ∀ c ∈ cols, c.name ≠ "_time" := by
      rw [htime]
      constructor
      · intro h c hc
        obtain ⟨i, hi⟩ := mem_enumFrom_of_mem cols 0 c hc
        exact h.2 (i, c) hi
      · intro h
        exact ⟨rfl, fun p hp => h p.2 (mem_enumFrom_snd _ _ _ hp)⟩
    by_cases m1 : info.measurement = -1
    · simp only [if_pos m1]
      refine ⟨?_, ?_, ?_⟩
      · constructor
        · intro h; simp [Except.isOk, Except.toBool] at h
        · intro hok
          obtain ⟨c, hc, hcn⟩ := hok.2.1
          exact absurd hcn (hm'.mp m1 c hc)
      · intro c g hcg; simp at hcg
      · intro c hc
        injection hc with h2
        injection h2 with h3
        subst h3
        exact ⟨hm'.mp m1, Or.inl rfl⟩
    · simp only [if_neg m1]
      by_cases m2 : info.field = -1
      · simp only [if_pos m2]
        refine ⟨?_, ?_, ?_⟩
        · constructor
          · intro h; simp [Except.isOk, Except.toBool] at h
          · intro hok
            obtain ⟨c, hc, hcn⟩ := hok.2.2.1
            exact absurd hcn (hf'.mp m2 c hc)
        · intro c g hcg; simp at hcg
        · intro c hc
          injection hc with h2
          injection h2 with h3
          subst h3
          exact ⟨hf'.mp m2, Or.inr (Or.inl rfl)⟩
      · simp only [if_neg m2]
        by_cases m3 : info.value = -1
        · simp only [if_pos m3]
          refine ⟨?_, ?_, ?_⟩
          · constructor
            · intro h; simp [Except.isOk, Except.toBool] at h
            · intro hok
              obtain ⟨c, hc, hcn⟩ := hok.2.2.2.1
              exact absurd hcn (hv'.mp m3 c hc)
          · intro c g hcg; simp at hcg
          · intro c hc
            injection hc with h2
            injection h2 with h3
            subst h3
            exact ⟨hv'.mp m3, Or.inr (Or.inr (Or.inl rfl))⟩
        · simp only [if_neg m3]
          by_cases m4 : info.time = -1
          · simp only [if_pos m4]
            refine ⟨?_, ?_, ?_⟩
            · constructor
              · intro h; simp [Except.isOk, Except.toBool] at h
              · intro hok
                obtain ⟨c, hc, hcn⟩ := hok.2.2.2.2
                exact absurd hcn (ht'.mp m4 c hc)
            · intro c g hcg; simp at hcg
            · intro c hc
              injection hc with h2
              injection h2 with h3
              subst h3
              exact ⟨ht'.mp m4, Or.inr (Or.inr (Or.inr rfl))⟩
          · simp only [if_neg m4]
            refine ⟨?_, ?_, ?_⟩
            · constructor
              · intro _
                have e1 := mt hm'.mpr m1
                have e2 := mt hf'.mpr m2
                have e3 := mt hv'.mpr m3
                have e4 := mt ht'.mpr m4
                push_neg at e1 e2 e3 e4
                exact ⟨hgood, e1, e2, e3, e4⟩
              · intro _; simp [Except.isOk, Except.toBool]
            · intro c g hcg; simp at hcg
            · intro c hc; simp at hc

/-- A well-formed reserved schema for the C8 witness. -/
def c8cols : List ACColumn :=
  [⟨"_measurement", "string"⟩, ⟨"_field", "string"⟩, ⟨"_value", "long"⟩,
   ⟨"_time", "dateTime:RFC3339"⟩]

/-- Witness for claim C8: the four-column reserved schema satisfies the
shape predicate and table-info construction succeeds on it. -/
theorem claimC8_witness : (tableInfoForColumns c8cols).isOk = true :=
  (claimC8 c8cols).1.mpr (by decide)

/-- A column that the encoder treats as a tag: named, and not one of the
four reserved names. -/
def nonReservedTagB (c : ACColumn) : Bool :=
  decide (c.name ≠ "_measurement" ∧ c.name ≠ "_field" ∧ c.name ≠ "_value"
    ∧ c.name ≠ "_time" ∧ c.name ≠ "")

/-- The tag keys the loop accumulates: the non-reserved named columns in
encounter order, each with one leading underscore trimmed. -/
def tagSpecNames (cols : List ACColumn) : List String :=
  ((enumFrom 0 cols).filter (fun p => nonReservedTagB p.2)).map
    (fun p => trimUnderscore p.2.name)

/-- The tag column indices in encounter order. -/
def tagSpecIdxs (cols : List ACColumn) : List Nat :=
  ((enumFrom 0 cols).filter (fun p => nonReservedTagB p.2)).map (fun p => p.1)

/-- The tableInfoForColumns loop appends exactly the trimmed names and
indices of the non-reserved named columns, in encounter order. -/
theorem tifcLoop_tags (l : List (Nat × ACColumn)) :
    ∀ info info', tifcLoop l info = .ok info' →
      info'.tagNames = info.tagNames ++
        (l.filter (fun p => nonReservedTagB p.2)).map
          (fun p => trimUnderscore p.2.name)
      ∧ info'.tagIndexes = info.tagIndexes ++
        (l.filter (fun p => nonReservedTagB p.2)).map (fun p => p.1) := by
  induction l with
  | nil =>
    intro info info' h
    cases h
    simp
  | cons p rest ih =>
    intro info info' h
    obtain ⟨i, col⟩ := p
    rw [tifcLoop] at h
    by_cases h1 : col.name = "_measurement"
    · rw [if_pos h1] at h
      have hfc : nonReservedTagB (i, col).2 = false := by
        simp [nonReservedTagB, h1]
      split at h
      · cases h
      · obtain ⟨hn, hi⟩ := ih _ _ h
        constructor
        · rw [hn]; simp [List.filter_cons, hfc]
        · rw [hi]; simp [List.filter_cons, hfc]
    · rw [if_neg h1] at h
      by_cases h2 : col.name = "_field"
      · rw [if_pos h2] at h
        have hfc : nonReservedTagB (i, col).2 = false := by
          simp [nonReservedTagB, h2]
        split at h
        · cases h
        · obtain ⟨hn, hi⟩ := ih _ _ h
          constructor
          · rw [hn]; simp [List.filter_cons, hfc]
          · rw [hi]; simp [List.filter_cons, hfc]
      · rw [if_neg h2] at h
        by_cases h3 : col.name = "_value"
        · rw [if_pos h3] at h
          have hfc : nonReservedTagB (i, col).2 = false := by
            simp [nonReservedTagB, h3]
          obtain ⟨hn, hi⟩ := ih _ _ h
          constructor
          · rw [hn]; simp [List.filter_cons, hfc]
          · rw [hi]; simp [List.filter_cons, hfc]
        · rw [if_neg h3] at h
          by_cases h4 : col.name = "_time"
          · rw [if_pos h4] at h
            have hfc : nonReservedTagB (i, col).2 = false := by
              simp [nonReservedTagB, h4]
            split at h
            · cases h
            · obtain ⟨hn, hi⟩ := ih _ _ h
              constructor
              · rw [hn]; simp [List.filter_cons, hfc]
              · rw [hi]; simp [List.filter_cons, hfc]
          · rw [if_neg h4] at h
            by_cases h5 : col.name = ""
            · rw [if_pos h5] at h
              have hfc : nonReservedTagB (i, col).2 = false := by
                simp [nonReservedTagB, h5]
              obtain ⟨hn, hi⟩ := ih _ _ h
              constructor
              · rw [hn]; simp [List.filter_cons, hfc]
              · rw [hi]; simp [List.filter_cons, hfc]
            · rw [if_neg h5] at h
              have hfc : nonReservedTagB (i, col).2 = true := by
                simp [nonReservedTagB, h1, h2, h3, h4, h5]
              obtain ⟨hn, hi⟩ := ih _ _ h
              constructor
              · rw [hn]; simp [List.filter_cons, hfc]
              · rw [hi]; simp [List.filter_cons, hfc]

/-- Claim C9: when table-info construction succeeds, the tag keys are
exactly the non-reserved named columns in encounter order with a single
leading underscore stripped from each name (so _foo yields tag key foo
and __foo yields _foo, while names without a leading underscore are
unchanged), and the tag indices are those columns' positions in the same
order. -/
theorem claimC9 (cols : List ACColumn) (info : TableInfo)
    (h : tableInfoForColumns cols = .ok info) :
    info.tagNames = tagSpecNames cols
    ∧ info.tagIndexes = tagSpecIdxs cols
    ∧ trimUnderscore "_foo" = "foo"
    ∧ trimUnderscore "__foo" = "_foo"
    ∧ trimUnderscore "bar" = "bar" := by
  unfold tableInfoForColumns at h
  split at h
  · cases h
  · rename_i info0 heq
    split at h
    · cases h
    · split at h
      · cases h
      · split at h
        · cases h
        · split at h
          · cases h
          · injection h with h2
            subst h2
            obtain ⟨hn, hi⟩ := tifcLoop_tags _ _ _ heq
            refine ⟨?_, ?_, by decide, by decide, by decide⟩
            · rw [hn]; simp [tagSpecNames]
            · rw [hi]; simp [tagSpecIdxs]

/-- Columns with underscore-prefixed and plain tag names for the C9
witness. -/
def c9cols : List ACColumn :=
  [⟨"_measurement", "string"⟩, ⟨"_field", "string"⟩, ⟨"_value", "long"⟩,
   ⟨"_time", "dateTime:RFC3339"⟩, ⟨"_foo", "t1"⟩, ⟨"__foo", "t2"⟩,
   ⟨"bar", "t3"⟩]

/-- The table info produced for the C9 witness columns. -/
def c9info : TableInfo :=
  { measurement := 0, field := 1, value := 2, time := 3,
    tagNames := ["foo", "_foo", "bar"], tagIndexes := [4, 5, 6] }

/-- Witness for claim C9: _foo, __foo and bar become tag keys foo, _foo
and bar at indices 4, 5 and 6. -/
theorem claimC9_witness :
    tableInfoForColumns c9cols = .ok c9info
    ∧ c9info.tagNames = ["foo", "_foo", "bar"]
    ∧ c9info.tagIndexes = [4, 5, 6] := by
  have h : tableInfoForColumns c9cols = .ok c9info := by rfl
  refine ⟨h, ?_, ?_⟩
  · exact ((claimC9 c9cols c9info h).1).trans (by decide)
  · exact ((claimC9 c9cols c9info h).2.1).trans (by decide)
